import Mathlib

/-!
Shallow embedding of the shader-source composition driver in `src/source.rs`
(crate `include-wgsl-oil`): multi-strategy path resolution (`Sourcecode::new`),
recursive project scanning (`all_child_shaders` / `all_shaders_in_project`),
module registration and final composition (`Sourcecode::compose` /
`Sourcecode::complete`), and diagnostic chain flattening.

Filesystem state is modelled as a finite directory tree; `std::fs` calls
become lookups in that tree.  The external `naga_oil` composer is modelled as
an oracle giving the outcome of each registration (`add_composable_module`)
and of the final compilation (`make_naga_module`).  Rust panics (`panic!`,
`expect`, `assert!`) are modelled as `none` results.
-/

set_option autoImplicit false

/-- Model of `std::path::PathBuf`: an absolute/relative flag plus the list of
normal components. -/
structure PathBuf where
  absolute : Bool
  components : List String
  deriving DecidableEq, Repr

/-- `Path::join`: an absolute right operand replaces the left one, otherwise
the components are appended. -/
def PathBuf.join (p q : PathBuf) : PathBuf :=
  if q.absolute then q else ⟨p.absolute, p.components ++ q.components⟩

/-- `Path::parent`: drop the last component; `None` for the filesystem root
`/` and for the empty relative path. -/
def PathBuf.parent (p : PathBuf) : Option PathBuf :=
  match p.components with
  | [] => none
  | _ :: _ => some ⟨p.absolute, p.components.dropLast⟩

/-- The characters after the last `'.'` of a character list, when a dot is
present at all. -/
def after_last_dot : List Char → Option (List Char)
  | [] => none
  | c :: cs =>
    match after_last_dot cs with
    | some r => some r
    | none => if c = '.' then some cs else none

/-- Extension of a single file name, following `std::path`: the part after
the last dot, except that a leading dot (hidden file) does not count as a
separator. -/
def extension_of_name (name : String) : Option String :=
  match name.toList with
  | [] => none
  | c :: cs =>
    let visible := if c = '.' then cs else c :: cs
    (after_last_dot visible).map (fun r => String.mk r)

/-- `Path::extension`: extension of the final component. -/
def PathBuf.extension (p : PathBuf) : Option String :=
  match p.components.getLast? with
  | none => none
  | some name => extension_of_name name

/-- Join path components with `/` separators. -/
def join_components : List String → String
  | [] => ""
  | [c] => c
  | c :: rest => c ++ "/" ++ join_components rest

/-- Display form of a path (stands in for `to_string_lossy`). -/
def PathBuf.render (p : PathBuf) : String :=
  (if p.absolute then "/" else "") ++ join_components p.components

/-- `Path::strip_prefix`: remove a component prefix, giving a relative
remainder; `None` (an `Err` in Rust) when the prefix does not match. -/
def strip_prefix (p pre : PathBuf) : Option PathBuf :=
  if pre.absolute = p.absolute ∧ pre.components.isPrefixOf p.components
  then some ⟨false, p.components.drop pre.components.length⟩
  else none

/-! A directory tree: the model of the filesystem state seen by the driver.
A `file` carries `some text` when `read_to_string` would succeed on it and
`none` when the file exists but reading fails (permissions, encoding). An
`other` entry is a non-regular file (socket, device, broken link). -/

mutual

inductive FSTree where
  | file (content : Option String)
  | dir (entries : FSEntries)
  | other

inductive FSEntries where
  | nil
  | cons (name : String) (tree : FSTree) (rest : FSEntries)

end

/-- Find the child of a directory with the given name. -/
def FSEntries.find : FSEntries → String → Option FSTree
  | .nil, _ => none
  | .cons m t rest, n => if m = n then some t else FSEntries.find rest n

/-- Walk a component list down a tree. -/
def FSTree.lookup : FSTree → List String → Option FSTree
  | t, [] => some t
  | t, n :: rest =>
    match t with
    | .dir es =>
      match FSEntries.find es n with
      | some sub => FSTree.lookup sub rest
      | none => none
    | _ => none

/-- The ambient filesystem and process state of one macro invocation:
the root directory tree, the working directory of the process (absolute
components), the value of the `CARGO_MANIFEST_DIR` environment variable, and
the behaviour of `std::fs::canonicalize` (symlink resolution), which may fail. -/
structure FS where
  root : FSTree
  cwd : List String
  manifestDir : PathBuf
  canon : PathBuf → Option PathBuf

/-- Absolute components a path denotes: relative paths are resolved against
the working directory, as the OS does for `std::fs` calls. -/
def FS.resolveComponents (fs : FS) (p : PathBuf) : List String :=
  if p.absolute then p.components else fs.cwd ++ p.components

/-- The filesystem object at a path, if any. -/
def FS.lookup (fs : FS) (p : PathBuf) : Option FSTree :=
  FSTree.lookup fs.root (fs.resolveComponents p)

/-- `std::fs::read_to_string`: succeeds exactly on readable regular files. -/
def FS.read_to_string (fs : FS) (p : PathBuf) : Option String :=
  match fs.lookup p with
  | some (.file (some s)) => some s
  | _ => none

/-- `Path::is_dir`. -/
def FS.is_dir (fs : FS) (p : PathBuf) : Bool :=
  match fs.lookup p with
  | some (.dir _) => true
  | _ => false

/-- The shader dialects known to `naga_oil` registration. -/
inductive ShaderLanguage where
  | Wgsl
  | Glsl
  deriving DecidableEq, Repr

/-- `get_shader_extension` from `source.rs`: recognize `wgsl` and `glsl`. -/
def get_shader_extension (path : PathBuf) : Option ShaderLanguage :=
  match path.extension with
  | none => none
  | some v =>
    match v with
    | "wgsl" => some ShaderLanguage.Wgsl
    | "glsl" => some ShaderLanguage.Glsl
    | _ => none

/-- `is_shader_extension` from `source.rs`. -/
def is_shader_extension (path : PathBuf) : Bool :=
  (get_shader_extension path).isSome

/-- `DirEntry::path().is_file()` for an entry of the tree. -/
def FSTree.isFileTree : FSTree → Bool
  | .file _ => true
  | _ => false

/-- `DirEntry::path().is_dir()` for an entry of the tree. -/
def FSTree.isDirTree : FSTree → Bool
  | .dir _ => true
  | _ => false

/-! `all_child_shaders` from `source.rs`: recursively walk the directory at
`root`, pushing the canonicalized path of every regular file with a
recognized shader extension, in directory-iteration order.  A `none` result
models the panics: `read_dir` failing (walking a non-directory) or a
canonicalize failure. -/

mutual

def all_child_shaders (canon : PathBuf → Option PathBuf) (root : PathBuf) :
    (t : FSTree) → Option (List PathBuf)
  | .dir es => all_child_entries canon root es
  | _ => none
termination_by structural t => t

def all_child_entries (canon : PathBuf → Option PathBuf) (root : PathBuf) :
    (es : FSEntries) → Option (List PathBuf)
  | .nil => some []
  | .cons name sub rest =>
    let path := PathBuf.join root ⟨false, [name]⟩
    if sub.isFileTree ∧ is_shader_extension path then
      match canon path with
      | none => none
      | some cp => (all_child_entries canon root rest).map (fun there => cp :: there)
    else if sub.isDirTree then
      match all_child_shaders canon path sub with
      | none => none
      | some here => (all_child_entries canon root rest).map (fun there => here ++ there)
    else
      all_child_entries canon root rest
termination_by structural es => es

end

/-- `all_shaders_in_project` from `source.rs`: canonicalize
`CARGO_MANIFEST_DIR/src`, assert it is a directory, walk it, and pair every
found absolute path with its path relative to the `src` root.  `none` models
the `expect`/`assert!` panics. -/
def all_shaders_in_project (fs : FS) : Option (List (PathBuf × PathBuf)) :=
  match fs.canon (PathBuf.join fs.manifestDir ⟨false, ["src"]⟩) with
  | none => none
  | some src_root =>
    if fs.is_dir src_root then
      match fs.lookup src_root with
      | none => none
      | some t =>
        match all_child_shaders fs.canon src_root t with
        | none => none
        | some paths =>
          paths.mapM (fun path =>
            Option.map (fun subpath => (path, subpath)) ( strip_prefix path src_root))
    else none

/-! ## The external composer (`naga_oil`), modelled as an oracle -/

/-- `naga::valid::Capabilities`; only `all()` is ever requested. -/
inductive Capabilities where
  | default
  | all
  deriving DecidableEq, Repr

/-- `naga_oil::compose::ShaderType` of a top-level compile request. -/
inductive ShaderType where
  | Wgsl
  | GlslVertex
  | GlslFragment
  deriving DecidableEq, Repr

/-- A `naga_oil` error value: its own `Display` text plus the `Display`
texts of its `Error::source` chain, outermost cause first. -/
structure ComposerError where
  msg : String
  causes : List String
  deriving DecidableEq, Repr

/-- `naga_oil::compose::ComposableModuleDescriptor` (the fields the driver
fills; `shader_defs` stays the empty map and `additional_imports` the empty
slice). -/
structure ComposableModuleDescriptor where
  source : String
  file_path : String
  language : ShaderLanguage
  as_name : Option String
  additional_imports : List String
  shader_defs : List (String × String)
  deriving DecidableEq, Repr

/-- `naga_oil::compose::NagaModuleDescriptor`. -/
structure NagaModuleDescriptor where
  source : String
  file_path : String
  shader_type : ShaderType
  shader_defs : List (String × String)
  additional_imports : List String
  deriving DecidableEq, Repr

/-- A validated `naga::Module`, abstracted to the names it exposes. -/
structure NagaModule where
  functions : List String
  deriving DecidableEq, Repr

/-- `naga::Module::default()`: the empty module. -/
def NagaModule.default : NagaModule := ⟨[]⟩

/-- The `naga_oil::compose::Composer` state the driver manipulates:
its configuration flags and the modules registered so far. -/
structure Composer where
  validate : Bool
  capabilities : Capabilities
  modules : List ComposableModuleDescriptor
  deriving DecidableEq, Repr

/-- `Composer::default()`. -/
def Composer.default : Composer := ⟨false, Capabilities.default, []⟩

/-- The behaviour of the external composer, which owns parsing, import
resolution and validation: the outcome of `add_composable_module` in a given
composer state (`none` = `Ok`), and the outcome of `make_naga_module`. -/
structure ComposerOracle where
  add : Composer → ComposableModuleDescriptor → Option ComposerError
  make : Composer → NagaModuleDescriptor → Except ComposerError NagaModule

/-- The diagnostic flattening done inline in `Sourcecode::compose`: start
from the error's own text, then walk the `source()` chain outermost to
innermost, extending the message with `": "` before each cause. -/
def render_error (e : ComposerError) : String :=
  e.causes.foldl (fun message cause => message ++ ": " ++ cause) e.msg

/-! ## The `Sourcecode` unit and its operations -/

/-- The `Sourcecode` struct from `source.rs`. -/
structure Sourcecode where
  src : String
  source_path : PathBuf
  invocation_path : PathBuf
  errors : List String
  dependents : List PathBuf
  deriving DecidableEq, Repr

/-- `Sourcecode::push_error`. -/
def Sourcecode.push_error (s : Sourcecode) (message : String) : Sourcecode :=
  { s with errors := s.errors ++ [message] }

/-- `try_read_alternate_path` from `source.rs`: keep an earlier success,
otherwise attempt to read the alternate path. -/
def try_read_alternate_path (fs : FS) (result : Option (String × PathBuf))
    (alternate_path : PathBuf) : Option (String × PathBuf) :=
  match result with
  | some r => some r
  | none => (fs.read_to_string alternate_path).map (fun src => (src, alternate_path))

/-- The ancestor-walking loop of `Sourcecode::new`.  The Rust loop keeps a
`search_paths` cursor and repeatedly takes `parent()`; here the cursor's
components are carried reversed so that taking the parent is structural
(dropping the head of the reversed list).  Each step joins the cursor with
the requested path and attempts a read; the loop stops after trying the
rootless/root cursor, whose `parent()` is `None`. -/
def search_go (fs : FS) (requested_path : PathBuf) (abs : Bool) :
    Option (String × PathBuf) → List String → Option (String × PathBuf)
  | src, [] => try_read_alternate_path fs src (PathBuf.join ⟨abs, []⟩ requested_path)
  | src, r :: rs =>
    let src := try_read_alternate_path fs src
      (PathBuf.join ⟨abs, (r :: rs).reverse⟩ requested_path)
    search_go fs requested_path abs src rs

/-- `Sourcecode::new` from `source.rs`: three resolution strategies in order
(standalone, relative to the invoking directory and each of its ancestors,
relative to `CARGO_MANIFEST_DIR`), first successful read wins; `none` models
the fatal `panic!` when every strategy fails. -/
def Sourcecode.new (fs : FS) (invocation_path : PathBuf) (requested_path : PathBuf) :
    Option Sourcecode :=
  let src0 := (fs.read_to_string requested_path).map (fun src => (src, requested_path))
  let src1 := search_go fs requested_path invocation_path.absolute src0
    invocation_path.components.reverse
  let src2 := try_read_alternate_path fs src1 (PathBuf.join fs.manifestDir requested_path)
  match src2 with
  | none => none
  | some (src, source_path) =>
    some { src := src, source_path := source_path, invocation_path := invocation_path,
           errors := [], dependents := [] }

/-- The `ComposableModuleDescriptor` built for one scanned file inside the
registration loop of `Sourcecode::compose`. -/
def module_descriptor (source : String) (absolute_path : PathBuf)
    (language : ShaderLanguage) (relative_path : PathBuf) : ComposableModuleDescriptor :=
  { source := source
    file_path := absolute_path.render
    language := language
    as_name := some relative_path.render
    additional_imports := []
    shader_defs := [] }

/-- The registration loop of `Sourcecode::compose`: for each scanned file,
re-check the extension, read the text (an unreadable file is skipped with no
effect), register the module, record the dependency, and record a flattened
diagnostic if registration failed. -/
def register_loop (fs : FS) (oracle : ComposerOracle) :
    List (PathBuf × PathBuf) → Composer → Sourcecode → Composer × Sourcecode
  | [], composer, s => (composer, s)
  | (absolute_path, relative_path) :: rest, composer, s =>
    match get_shader_extension absolute_path with
    | none => register_loop fs oracle rest composer s
    | some language =>
      match fs.read_to_string absolute_path with
      | none => register_loop fs oracle rest composer s
      | some source =>
        let desc := module_descriptor source absolute_path language relative_path
        let res := oracle.add composer desc
        let composer' :=
          match res with
          | none => { composer with modules := composer.modules ++ [desc] }
          | some _ => composer
        let s' := { s with dependents := s.dependents ++ [absolute_path] }
        let s'' :=
          match res with
          | none => s'
          | some e => s'.push_error (render_error e)
        register_loop fs oracle rest composer' s''

/-- The `NagaModuleDescriptor` of the final `make_naga_module` call: the
entry unit's own source, its resolved path as label, and always
`ShaderType::Wgsl`. -/
def entry_descriptor (s : Sourcecode) : NagaModuleDescriptor :=
  { source := s.src
    file_path := s.source_path.render
    shader_type := ShaderType.Wgsl
    shader_defs := []
    additional_imports := [] }

/-- The composer state set up at the start of `Sourcecode::compose`:
default, then `capabilities = all()` and `validate = true`. -/
def initial_composer : Composer :=
  { Composer.default with capabilities := Capabilities.all, validate := true }

/-- `Sourcecode::compose` from `source.rs`: scan the project, register every
readable scanned file, then compile the entry source itself; a final
compilation failure appends one flattened diagnostic and yields no module.
The outer `none` models the panics inside `all_shaders_in_project`. -/
def Sourcecode.compose (fs : FS) (oracle : ComposerOracle) (s : Sourcecode) :
    Option (Sourcecode × Option NagaModule) :=
  match all_shaders_in_project fs with
  | none => none
  | some shaders =>
    let step := register_loop fs oracle shaders initial_composer s
    match oracle.make step.1 (entry_descriptor step.2) with
    | Except.ok module => some (step.2, some module)
    | Except.error e => some (step.2.push_error (render_error e), none)

/-- `ShaderResult` from `crate::result`.  Modelled from the spec: the
result type is not under `src/`; per the spec it packages the finished unit
together with the produced module (real or default). -/
structure ShaderResult where
  sourcecode : Sourcecode
  module : NagaModule
  deriving DecidableEq, Repr

/-- `ShaderResult::new`.  Modelled from the spec: the constructor pairs the
unit with the module. -/
def ShaderResult.new (s : Sourcecode) (module : NagaModule) : ShaderResult :=
  ⟨s, module⟩

/-- `Sourcecode::complete` from `source.rs`: compose, defaulting to the
empty module on composition failure. -/
def Sourcecode.complete (fs : FS) (oracle : ComposerOracle) (s : Sourcecode) :
    Option ShaderResult :=
  (s.compose fs oracle).map (fun r => ShaderResult.new r.1 (r.2.getD NagaModule.default))

/-! ## Specification-side definitions used to state the claims -/

/-- One resolver read attempt: the text found at `p`, tagged with `p`. -/
def read_pair (fs : FS) (p : PathBuf) : Option (String × PathBuf) :=
  (fs.read_to_string p).map (fun src => (src, p))

/-- All suffixes of a list, longest first. -/
def ancestor_suffixes : List String → List (List String)
  | [] => [[]]
  | c :: cs => (c :: cs) :: ancestor_suffixes cs

/-- The path itself followed by all of its ancestors, down to `/` for an
absolute path or the empty path for a relative one: exactly the cursor
positions of the `parent()` loop in `Sourcecode::new`. -/
def ancestor_paths (p : PathBuf) : List PathBuf :=
  (ancestor_suffixes p.components.reverse).map (fun r => PathBuf.mk p.absolute r.reverse)

/-- Every location probed by `Sourcecode::new`, in probe order: the
requested path standalone, then joined to the invoking directory and each
of its ancestors, then joined to the project root. -/
def resolution_candidates (fs : FS) (invocation_path requested_path : PathBuf) :
    List PathBuf :=
  requested_path ::
    (ancestor_paths invocation_path).map (fun a => PathBuf.join a requested_path)
    ++ [PathBuf.join fs.manifestDir requested_path]

/-- A scanned entry that the registration loop actually processes: its
extension is recognized and its text is readable. -/
def readable_shader (fs : FS) (pr : PathBuf × PathBuf) : Bool :=
  (get_shader_extension pr.1).isSome && (fs.read_to_string pr.1).isSome

/-- The composer-facing effect of the registration loop, separated from the
`Sourcecode` bookkeeping: the final composer state and the flattened
diagnostics of the failed registrations, in loop order. -/
def register_effects (fs : FS) (oracle : ComposerOracle) :
    List (PathBuf × PathBuf) → Composer → Composer × List String
  | [], composer => (composer, [])
  | (absolute_path, relative_path) :: rest, composer =>
    match get_shader_extension absolute_path with
    | none => register_effects fs oracle rest composer
    | some language =>
      match fs.read_to_string absolute_path with
      | none => register_effects fs oracle rest composer
      | some source =>
        let desc := module_descriptor source absolute_path language relative_path
        match oracle.add composer desc with
        | none =>
          register_effects fs oracle rest
            { composer with modules := composer.modules ++ [desc] }
        | some e =>
          let r := register_effects fs oracle rest composer
          (r.1, render_error e :: r.2)

/-- The `Sourcecode` state after the registration loop, in closed form:
dependencies extended by every readable scanned file, errors extended by the
failed-registration diagnostics. -/
def loop_result (fs : FS) (oracle : ComposerOracle) (s : Sourcecode)
    (shaders : List (PathBuf × PathBuf)) : Sourcecode :=
  { s with
    dependents := s.dependents ++ (shaders.filter (readable_shader fs)).map Prod.fst
    errors := s.errors ++ (register_effects fs oracle shaders initial_composer).2 }

/-- The spec's reading of diagnostic flattening: every level's text from
outermost to innermost, adjacent levels separated by `": "`, none omitted. -/
def chain_message : String → List String → String
  | m, [] => m
  | m, c :: cs => m ++ ": " ++ chain_message c cs

/-! The spec's reading of the scanner: exactly the regular files with a
recognized shader extension, found recursively in directory order, listed
by their (not yet canonicalized) visit paths. -/

def entries_shader_files (root : PathBuf) : (es : FSEntries) → List PathBuf
  | .nil => []
  | .cons name sub rest =>
    let path := PathBuf.join root ⟨false, [name]⟩
    (match sub with
     | .file _ => if is_shader_extension path then [path] else []
     | .dir es => entries_shader_files path es
     | .other => []) ++ entries_shader_files root rest

def tree_shader_files (root : PathBuf) : FSTree → List PathBuf
  | .dir es => entries_shader_files root es
  | _ => []

/-! ## A concrete project used for witnesses and counterexamples

The filesystem of the spec's Scenario 1, plus one unreadable shader:
`CARGO_MANIFEST_DIR = /proj`, working directory `/proj`, and a `src` tree
holding `a.wgsl` (the entry), `b.wgsl`, and an unreadable `locked.wgsl`.
No symlinks, so canonicalization just makes a path absolute. -/

def proj_tree : FSTree :=
  .dir (.cons "proj"
    (.dir (.cons "src"
      (.dir (.cons "a.wgsl" (.file (some "fn main"))
            (.cons "b.wgsl" (.file (some "b src"))
            (.cons "locked.wgsl" (.file none) .nil))))
      (.cons "Cargo.toml" (.file (some "pkg")) .nil)))
    .nil)

def projFS : FS :=
  { root := proj_tree
    cwd := ["proj"]
    manifestDir := ⟨true, ["proj"]⟩
    canon := fun p => some (if p.absolute then p else ⟨true, "proj" :: p.components⟩) }

def path_a : PathBuf := ⟨true, ["proj", "src", "a.wgsl"]⟩

def path_b : PathBuf := ⟨true, ["proj", "src", "b.wgsl"]⟩

def path_locked : PathBuf := ⟨true, ["proj", "src", "locked.wgsl"]⟩

def entry_inv : PathBuf := ⟨true, ["proj", "src"]⟩

/-- The scanned project: what `all_shaders_in_project` yields on `projFS`. -/
def proj_shaders : List (PathBuf × PathBuf) :=
  [(path_a, ⟨false, ["a.wgsl"]⟩), (path_b, ⟨false, ["b.wgsl"]⟩),
   (path_locked, ⟨false, ["locked.wgsl"]⟩)]

/-- The entry unit produced by resolving `a.wgsl` from `/proj/src`. -/
def scenario_unit : Sourcecode :=
  ⟨"fn main", path_a, entry_inv, [], []⟩

/-- A composer for which every registration and the final compile succeed. -/
def okOracle : ComposerOracle :=
  { add := fun _ _ => none
    make := fun _ _ => Except.ok ⟨["main"]⟩ }

/-- A composer whose final compile fails with a two-level cause chain. -/
def failMakeOracle : ComposerOracle :=
  { add := fun _ _ => none
    make := fun _ _ => Except.error ⟨"failed to build naga module", ["invalid import"]⟩ }

/-- A composer that rejects the module whose source text is `b src`
(the file `b.wgsl` of the concrete project). -/
def failAddOracle : ComposerOracle :=
  { add := fun _ d => if d.source = "b src" then some ⟨"module error", ["bad token"]⟩ else none
    make := fun _ _ => Except.ok ⟨["main"]⟩ }

/-- A composer that only compiles WGSL top-level requests, rejecting the
GLSL shader types; it agrees with `okOracle` on every WGSL request. -/
def wgslOnlyOracle : ComposerOracle :=
  { add := fun _ _ => none
    make := fun _ d =>
      if d.shader_type = ShaderType.Wgsl then Except.ok ⟨["main"]⟩
      else Except.error ⟨"not wgsl", []⟩ }

/-- The end-to-end run of the concrete scenario: resolve `a.wgsl` from
`/proj/src`, then compose with the all-succeeding composer. -/
def scenario_result : Option (Sourcecode × Option NagaModule) :=
  (Sourcecode.new projFS entry_inv ⟨false, ["a.wgsl"]⟩).bind
    (fun u => u.compose projFS okOracle)

/-- A small tree exercising the scanner: a recognized file, an unrecognized
file, a subdirectory holding a recognized (unreadable) file and a
non-regular entry, and an extensionless file. -/
def scan_tree : FSTree :=
  .dir (.cons "a.wgsl" (.file (some "A"))
       (.cons "notes.txt" (.file (some "N"))
       (.cons "sub" (.dir (.cons "c.glsl" (.file none) (.cons "dev" .other .nil)))
       (.cons "noext" (.file (some "X")) .nil))))

def scan_root : PathBuf := ⟨true, ["r"]⟩

def scan_canon : PathBuf → Option PathBuf := fun p => some p

/-- The entry unit after composing the concrete scenario with `okOracle`:
both readable project files — the entry itself included — are dependencies. -/
def scenario_after : Sourcecode :=
  ⟨"fn main", path_a, entry_inv, [], [path_a, path_b]⟩

/-- The entry unit after composing with `failAddOracle`: the rejected module
leaves one flattened diagnostic, yet still becomes a dependency. -/
def scenario_fail_after : Sourcecode :=
  ⟨"fn main", path_a, entry_inv, ["module error: bad token"], [path_a, path_b]⟩

/-- An entry unit whose resolved path has a `.glsl` extension. -/
def glsl_unit : Sourcecode :=
  ⟨"void main()", ⟨true, ["proj", "src", "c.glsl"]⟩, entry_inv, [], []⟩

/-! ## Helper lemmas: resolution -/

theorem findSome_append {α β : Type} (f : α → Option β) (l1 l2 : List α) :
    List.findSome? f (l1 ++ l2) =
      match List.findSome? f l1 with
      | some b => some b
      | none => List.findSome? f l2 := by
  induction l1 with
  | nil => simp [List.findSome?]
  | cons a l ih =>
    cases h : f a <;> simp [List.findSome?, h, ih]

theorem findSome_mem {α β : Type} (f : α → Option β) (l : List α) (b : β)
    (h : List.findSome? f l = some b) : ∃ a, a ∈ l ∧ f a = some b := by
  induction l with
  | nil => simp [List.findSome?] at h
  | cons a l ih =>
    cases ha : f a with
    | some c =>
      simp [List.findSome?, ha] at h
      exact ⟨a, by simp, by rw [ha, h]⟩
    | none =>
      simp [List.findSome?, ha] at h
      obtain ⟨x, hx, hfx⟩ := ih h
      exact ⟨x, by simp [hx], hfx⟩

theorem findSome_none {α β : Type} (f : α → Option β) (l : List α) :
    (∀ a ∈ l, f a = none) → List.findSome? f l = none := by
  induction l with
  | nil => intro _; rfl
  | cons a l ih =>
    intro h
    have ha := h a (by simp)
    have hrest : List.findSome? f l = none := ih (fun x hx => h x (by simp [hx]))
    simp [List.findSome?, ha, hrest]

theorem try_read_some (fs : FS) (r : String × PathBuf) (a : PathBuf) :
    try_read_alternate_path fs (some r) a = some r := rfl

theorem try_read_none (fs : FS) (a : PathBuf) :
    try_read_alternate_path fs none a = read_pair fs a := rfl

theorem search_go_some (fs : FS) (req : PathBuf) (abs : Bool)
    (r : String × PathBuf) (rcomps : List String) :
    search_go fs req abs (some r) rcomps = some r := by
  induction rcomps with
  | nil => rfl
  | cons c cs ih => simp only [search_go, try_read_some, ih]

theorem search_go_none (fs : FS) (req : PathBuf) (abs : Bool) (rcomps : List String) :
    search_go fs req abs none rcomps =
      List.findSome? (read_pair fs)
        ((ancestor_suffixes rcomps).map
          (fun rr => PathBuf.join ⟨abs, rr.reverse⟩ req)) := by
  induction rcomps with
  | nil =>
    simp only [search_go, try_read_none, ancestor_suffixes, List.map_cons, List.map_nil,
      List.findSome?, List.reverse_nil]
    cases read_pair fs (PathBuf.join ⟨abs, ([] : List String)⟩ req) <;> rfl
  | cons c cs ih =>
    simp only [search_go, try_read_none, ancestor_suffixes, List.map_cons, List.findSome?]
    cases h : read_pair fs (PathBuf.join ⟨abs, (c :: cs).reverse⟩ req) with
    | some v => rw [search_go_some]
    | none => exact ih

theorem option_match_to_map (o : Option (String × PathBuf)) (inv : PathBuf) :
    (match o with
     | none => none
     | some (src, source_path) =>
       some (⟨src, source_path, inv, [], []⟩ : Sourcecode))
    = o.map (fun r => ⟨r.1, r.2, inv, [], []⟩) := by
  cases o with
  | none => rfl
  | some r => cases r; rfl

theorem resolve_chain_eq (fs : FS) (inv req : PathBuf) :
    try_read_alternate_path fs
      (search_go fs req inv.absolute
        ((fs.read_to_string req).map (fun src => (src, req))) inv.components.reverse)
      (PathBuf.join fs.manifestDir req)
    = List.findSome? (read_pair fs) (resolution_candidates fs inv req) := by
  have hmap : (ancestor_suffixes inv.components.reverse).map
      (fun rr => PathBuf.join ⟨inv.absolute, rr.reverse⟩ req)
      = (ancestor_paths inv).map (fun a => PathBuf.join a req) := by
    unfold ancestor_paths
    rw [List.map_map]
    rfl
  cases h0 : fs.read_to_string req with
  | some t =>
    have hrp : read_pair fs req = some (t, req) := by unfold read_pair; rw [h0]; rfl
    simp only [Option.map_some']
    rw [search_go_some, try_read_some]
    simp [resolution_candidates, List.findSome?, hrp]
  | none =>
    have hrp : read_pair fs req = none := by unfold read_pair; rw [h0]; rfl
    simp only [Option.map_none']
    rw [search_go_none, hmap]
    unfold resolution_candidates
    simp only [List.findSome?, hrp, List.append_eq]
    rw [findSome_append]
    cases hmid : List.findSome? (read_pair fs)
        ((ancestor_paths inv).map (fun a => PathBuf.join a req)) with
    | some v => rw [try_read_some]
    | none =>
      rw [try_read_none]
      cases hlast : read_pair fs (PathBuf.join fs.manifestDir req) <;>
        simp [List.findSome?, hlast]

theorem new_eq_candidates (fs : FS) (inv req : PathBuf) :
    Sourcecode.new fs inv req =
      (List.findSome? (read_pair fs) (resolution_candidates fs inv req)).map
        (fun r => ⟨r.1, r.2, inv, [], []⟩) := by
  rw [← resolve_chain_eq]
  exact option_match_to_map _ inv

/-! ## Helper lemmas: registration loop and composition -/

theorem register_loop_eq (fs : FS) (oracle : ComposerOracle)
    (l : List (PathBuf × PathBuf)) (composer : Composer) (s : Sourcecode) :
    register_loop fs oracle l composer s =
      ((register_effects fs oracle l composer).1,
        { s with
          dependents := s.dependents ++ (l.filter (readable_shader fs)).map Prod.fst
          errors := s.errors ++ (register_effects fs oracle l composer).2 }) := by
  induction l generalizing composer s with
  | nil => simp [register_loop, register_effects]
  | cons pr rest ih =>
    obtain ⟨p, rel⟩ := pr
    cases hext : get_shader_extension p with
    | none =>
      simp only [register_loop, register_effects, hext, ih, List.filter_cons,
        readable_shader, Option.isSome, hext]
      simp [readable_shader, hext]
    | some language =>
      cases hread : fs.read_to_string p with
      | none =>
        simp only [register_loop, register_effects, hext, hread, ih]
        simp [readable_shader, hext, hread]
      | some source =>
        have hreadable : readable_shader fs (p, rel) = true := by
          simp [readable_shader, hext, hread]
        cases hres : oracle.add composer (module_descriptor source p language rel) with
        | none =>
          simp only [register_loop, register_effects, hext, hread, hres, ih,
            List.filter_cons, hreadable]
          simp [List.append_assoc]
        | some e =>
          simp only [register_loop, register_effects, hext, hread, hres, ih,
            List.filter_cons, hreadable, Sourcecode.push_error]
          simp [List.append_assoc]

theorem register_loop_oracle_add (fs : FS) (o1 o2 : ComposerOracle)
    (h : o1.add = o2.add) (l : List (PathBuf × PathBuf)) (composer : Composer)
    (s : Sourcecode) :
    register_loop fs o1 l composer s = register_loop fs o2 l composer s := by
  induction l generalizing composer s with
  | nil => rfl
  | cons pr rest ih =>
    obtain ⟨p, rel⟩ := pr
    cases hext : get_shader_extension p with
    | none => simp only [register_loop, hext, ih]
    | some language =>
      cases hread : fs.read_to_string p with
      | none => simp only [register_loop, hext, hread, ih]
      | some source => simp only [register_loop, hext, hread, h, ih]

theorem register_effects_oracle_add (fs : FS) (o1 o2 : ComposerOracle)
    (h : o1.add = o2.add) (l : List (PathBuf × PathBuf)) (composer : Composer) :
    register_effects fs o1 l composer = register_effects fs o2 l composer := by
  induction l generalizing composer with
  | nil => rfl
  | cons pr rest ih =>
    obtain ⟨p, rel⟩ := pr
    cases hext : get_shader_extension p with
    | none => simp only [register_effects, hext, ih]
    | some language =>
      cases hread : fs.read_to_string p with
      | none => simp only [register_effects, hext, hread, ih]
      | some source => simp only [register_effects, hext, hread, h, ih]

theorem compose_eq (fs : FS) (oracle : ComposerOracle) (s : Sourcecode)
    (shaders : List (PathBuf × PathBuf))
    (hs : all_shaders_in_project fs = some shaders) :
    Sourcecode.compose fs oracle s =
      (match oracle.make (register_effects fs oracle shaders initial_composer).1
          (entry_descriptor s) with
       | Except.ok module => some (loop_result fs oracle s shaders, some module)
       | Except.error e =>
         some ((loop_result fs oracle s shaders).push_error (render_error e), none)) := by
  unfold Sourcecode.compose
  rw [hs]
  simp only [register_loop_eq]
  rfl

/-! ## Helper lemmas: diagnostic chains, ancestors, scanning -/

theorem chain_message_shift (cs : List String) (m c : String) :
    chain_message (m ++ ": " ++ c) cs = m ++ ": " ++ chain_message c cs := by
  cases cs with
  | nil => rfl
  | cons d ds => simp only [chain_message]; simp [String.append_assoc]

theorem foldl_chain_message (cs : List String) (m : String) :
    List.foldl (fun message cause => message ++ ": " ++ cause) m cs
      = chain_message m cs := by
  induction cs generalizing m with
  | nil => rfl
  | cons c cs ih =>
    show List.foldl (fun message cause => message ++ ": " ++ cause) (m ++ ": " ++ c) cs
        = chain_message m (c :: cs)
    rw [ih, chain_message_shift]
    rfl

theorem render_error_eq_chain (e : ComposerError) :
    render_error e = chain_message e.msg e.causes :=
  foldl_chain_message e.causes e.msg

mutual

theorem all_child_shaders_sound (canon : PathBuf → Option PathBuf) (root : PathBuf) :
    (t : FSTree) → (l : List PathBuf) →
    all_child_shaders canon root t = some l →
    List.Forall₂ (fun p q => canon p = some q) (tree_shader_files root t) l
  | .dir es, l, h => all_child_entries_sound canon root es l h
  | .file _, _, h => by simp [all_child_shaders] at h
  | .other, _, h => by simp [all_child_shaders] at h

theorem all_child_entries_sound (canon : PathBuf → Option PathBuf) (root : PathBuf) :
    (es : FSEntries) → (l : List PathBuf) →
    all_child_entries canon root es = some l →
    List.Forall₂ (fun p q => canon p = some q) (entries_shader_files root es) l
  | .nil, l, h => by
    simp only [all_child_entries, Option.some.injEq] at h
    subst h
    exact List.Forall₂.nil
  | .cons name sub rest, l, h => by
    cases sub with
    | file c =>
      by_cases hsh : is_shader_extension (PathBuf.join root ⟨false, [name]⟩) = true
      · simp only [all_child_entries, FSTree.isFileTree, hsh, true_and, and_true,
          if_true] at h
        cases hc : canon (PathBuf.join root ⟨false, [name]⟩) with
        | none => rw [hc] at h; simp at h
        | some cp =>
          rw [hc] at h
          cases hrest : all_child_entries canon root rest with
          | none => rw [hrest] at h; simp at h
          | some there =>
            rw [hrest] at h
            simp only [Option.map_some', Option.some.injEq] at h
            subst h
            simp only [entries_shader_files, hsh, if_true, List.singleton_append]
            exact List.Forall₂.cons hc
              (all_child_entries_sound canon root rest there hrest)
      · simp only [all_child_entries, FSTree.isFileTree, FSTree.isDirTree, hsh,
          and_false, false_and, and_true, true_and, if_false] at h
        simp only [entries_shader_files, hsh, if_false, List.nil_append]
        exact all_child_entries_sound canon root rest l h
    | dir es2 =>
      simp only [all_child_entries, FSTree.isFileTree, FSTree.isDirTree, false_and,
        if_false, if_true] at h
      cases hc : all_child_shaders canon (PathBuf.join root ⟨false, [name]⟩)
          (.dir es2) with
      | none => rw [hc] at h; simp at h
      | some here =>
        rw [hc] at h
        cases hrest : all_child_entries canon root rest with
        | none => rw [hrest] at h; simp at h
        | some there =>
          rw [hrest] at h
          simp only [Bool.false_eq_true, false_and, if_false, Option.map_some',
            Option.some.injEq] at h
          subst h
          simp only [entries_shader_files]
          exact List.rel_append
            (all_child_shaders_sound canon (PathBuf.join root ⟨false, [name]⟩)
              (.dir es2) here hc)
            (all_child_entries_sound canon root rest there hrest)
    | other =>
      simp only [all_child_entries, FSTree.isFileTree, FSTree.isDirTree, false_and,
        if_false] at h
      simp only [entries_shader_files, List.nil_append]
      exact all_child_entries_sound canon root rest l h

end

theorem parent_concat (abs : Bool) (L : List String) (b : String) :
    PathBuf.parent ⟨abs, L ++ [b]⟩ = some ⟨abs, L⟩ := by
  cases L with
  | nil => rfl
  | cons x xs =>
    show some (PathBuf.mk abs ((x :: (xs ++ [b])).dropLast))
        = some (PathBuf.mk abs (x :: xs))
    rw [show x :: (xs ++ [b]) = (x :: xs) ++ [b] from rfl, List.dropLast_concat]

theorem ancestor_paths_parent (p : PathBuf) :
    ancestor_paths p =
      p :: (match PathBuf.parent p with
            | none => []
            | some q => ancestor_paths q) := by
  obtain ⟨abs, cs⟩ := p
  rcases List.eq_nil_or_concat cs with h | ⟨L, b, h⟩
  · subst h; rfl
  · subst h
    simp only [List.concat_eq_append, parent_concat]
    unfold ancestor_paths
    simp [ancestor_suffixes, List.reverse_append]

/-! ## Claim theorems -/

/-- C3 (confirmed): `Sourcecode::new` probes, in a fixed order, the requested
path standalone, then the requested path joined to the invoking directory and
each of its ancestors up to the filesystem root, then the requested path
joined to the project root; the unit is built from the first candidate whose
read succeeds and later candidates are never consulted — in particular a
request readable standalone always wins over any invoker-ancestor
interpretation. -/
theorem new_resolution_order (fs : FS) (inv req : PathBuf) :
    Sourcecode.new fs inv req =
      (List.findSome? (read_pair fs) (resolution_candidates fs inv req)).map
        (fun r => ⟨r.1, r.2, inv, [], []⟩) ∧
    ∀ t, fs.read_to_string req = some t →
      Sourcecode.new fs inv req = some ⟨t, req, inv, [], []⟩ := by
  refine ⟨new_eq_candidates fs inv req, fun t ht => ?_⟩
  rw [new_eq_candidates]
  have hrp : read_pair fs req = some (t, req) := by unfold read_pair; rw [ht]; rfl
  simp [resolution_candidates, List.findSome?, hrp]

/-- Witness for C3: in the concrete project, `src/a.wgsl` is readable both
standalone (relative to the working directory `/proj`) and under the
invoking directory's ancestor `/proj`; the standalone reading wins. -/
theorem new_resolution_order_witness :
    Sourcecode.new projFS entry_inv ⟨false, ["src", "a.wgsl"]⟩ =
      some ⟨"fn main", ⟨false, ["src", "a.wgsl"]⟩, entry_inv, [], []⟩ :=
  (new_resolution_order projFS entry_inv ⟨false, ["src", "a.wgsl"]⟩).2 "fn main" (by decide)

/-- C7 (confirmed): when every resolution candidate fails to read,
construction of the unit aborts the whole request fatally: `Sourcecode::new`
panics, modelled as `none`, so no unit and no result exist. -/
theorem new_all_strategies_fail_fatal (fs : FS) (inv req : PathBuf)
    (h : ∀ p ∈ resolution_candidates fs inv req, fs.read_to_string p = none) :
    Sourcecode.new fs inv req = none := by
  have hall : List.findSome? (read_pair fs) (resolution_candidates fs inv req) = none :=
    findSome_none _ _ (fun a ha => by unfold read_pair; rw [h a ha]; rfl)
  rw [new_eq_candidates, hall]
  rfl

/-- Witness for C7: `missing.wgsl` exists nowhere in the concrete project. -/
theorem new_all_strategies_fail_fatal_witness :
    Sourcecode.new projFS ⟨true, ["proj"]⟩ ⟨false, ["missing.wgsl"]⟩ = none :=
  new_all_strategies_fail_fatal projFS ⟨true, ["proj"]⟩ ⟨false, ["missing.wgsl"]⟩
    (by decide)

/-- C2 (corrected), counterexample: resolving the relative request
`src/a.wgsl` (working directory `/proj`) succeeds through the standalone
strategy, and the unit leaves construction with that request stored verbatim
as its resolved path — a relative, hence non-absolute and non-canonical,
path. -/
theorem resolved_path_not_canonical_cex :
    (Sourcecode.new projFS entry_inv ⟨false, ["src", "a.wgsl"]⟩).map
        (fun u => (u.source_path, u.source_path.absolute))
      = some (⟨false, ["src", "a.wgsl"]⟩, false) := by decide

/-- C2 (corrected, amended): the resolved path of a successfully constructed
unit is the first probed candidate whose read succeeded, stored verbatim with
no canonicalization — so it is absolute or symlink-free only when that
candidate was — and the stored text is the text read at that path; the fresh
unit carries the invocation path and empty diagnostics and dependencies. -/
theorem new_resolved_path_candidates (fs : FS) (inv req : PathBuf) (u : Sourcecode)
    (h : Sourcecode.new fs inv req = some u) :
    u.source_path ∈ resolution_candidates fs inv req ∧
    fs.read_to_string u.source_path = some u.src ∧
    u.invocation_path = inv ∧ u.errors = [] ∧ u.dependents = [] := by
  rw [new_eq_candidates] at h
  cases hf : List.findSome? (read_pair fs) (resolution_candidates fs inv req) with
  | none => rw [hf] at h; simp at h
  | some r =>
    rw [hf] at h
    simp only [Option.map_some', Option.some.injEq] at h
    obtain ⟨a, ha, hfa⟩ := findSome_mem _ _ _ hf
    unfold read_pair at hfa
    cases hread : fs.read_to_string a with
    | none => rw [hread] at hfa; simp at hfa
    | some t =>
      rw [hread] at hfa
      simp only [Option.map_some', Option.some.injEq] at hfa
      subst hfa
      subst h
      exact ⟨ha, hread, rfl, rfl, rfl⟩

/-- Witness for C2's amended statement, on the concrete scenario unit. -/
theorem new_resolved_path_candidates_witness :
    scenario_unit.source_path ∈ resolution_candidates projFS entry_inv ⟨false, ["a.wgsl"]⟩ ∧
    projFS.read_to_string scenario_unit.source_path = some scenario_unit.src ∧
    scenario_unit.invocation_path = entry_inv ∧ scenario_unit.errors = [] ∧
    scenario_unit.dependents = [] :=
  new_resolved_path_candidates projFS entry_inv ⟨false, ["a.wgsl"]⟩ scenario_unit
    (by decide)

/-- C1 (corrected), counterexample: in the Scenario-1 project (entry
`a.wgsl` resolved to `/proj/src/a.wgsl`, sibling `b.wgsl`), the successful
composition's dependency list is `[canonical(a.wgsl), canonical(b.wgsl)]`:
it contains the entry's own resolved path and is not `{canonical(b.wgsl)}`. -/
theorem compose_includes_entry_cex :
    scenario_result.map (fun r => (r.1.source_path, r.1.dependents))
        = some (path_a, [path_a, path_b]) ∧
    path_a ∈ [path_a, path_b] ∧ [path_a, path_b] ≠ [path_b] := by decide

/-- C1 (corrected, amended): composition keeps the unit's resolved path
unchanged and its dependency list gains the canonical path of every scanned
readable project shader file with no exclusion of the entry: when the entry
file lies under the scanned `src` root, its own canonical path appears in
its dependency list like any other project file's. -/
theorem compose_dependents_no_entry_exclusion (fs : FS) (oracle : ComposerOracle)
    (s s' : Sourcecode) (m : Option NagaModule)
    (h : Sourcecode.compose fs oracle s = some (s', m)) :
    s'.source_path = s.source_path ∧
    ∀ shaders, all_shaders_in_project fs = some shaders →
      ∀ p rel, (p, rel) ∈ shaders → readable_shader fs (p, rel) = true →
        p ∈ s'.dependents := by
  cases hs : all_shaders_in_project fs with
  | none => rw [Sourcecode.compose, hs] at h; simp at h
  | some shaders0 =>
    have hkey : s'.source_path = s.source_path ∧
        s'.dependents = s.dependents
          ++ (shaders0.filter (readable_shader fs)).map Prod.fst := by
      rw [compose_eq fs oracle s shaders0 hs] at h
      cases hmk : oracle.make (register_effects fs oracle shaders0 initial_composer).1
          (entry_descriptor s) with
      | ok module =>
        rw [hmk] at h
        simp only [Option.some.injEq, Prod.mk.injEq] at h
        obtain ⟨h1, _⟩ := h
        subst h1
        exact ⟨rfl, rfl⟩
      | error e =>
        rw [hmk] at h
        simp only [Option.some.injEq, Prod.mk.injEq] at h
        obtain ⟨h1, _⟩ := h
        subst h1
        exact ⟨rfl, rfl⟩
    refine ⟨hkey.1, fun shaders hshaders p rel hmem hreadable => ?_⟩
    injection hshaders with hsh
    subst hsh
    rw [hkey.2]
    refine List.mem_append.mpr (Or.inr ?_)
    exact List.mem_map.mpr ⟨(p, rel), List.mem_filter.mpr ⟨hmem, hreadable⟩, rfl⟩

/-- Witness for C1's amended statement: the entry `a.wgsl` itself ends up in
its own dependency list. -/
theorem compose_dependents_no_entry_exclusion_witness :
    path_a ∈ scenario_after.dependents :=
  (compose_dependents_no_entry_exclusion projFS okOracle scenario_unit scenario_after
      (some ⟨["main"]⟩) (by decide)).2
    proj_shaders (by decide) path_a ⟨false, ["a.wgsl"]⟩ (by decide) (by decide)

/-- C4 (confirmed): for a successful composition, the dependency list is the
previous list extended by exactly the scanned files that were readable (in
scan order) — whatever the registration outcomes were — and the diagnostics
are the previous ones extended by the failed-registration diagnostics of the
loop plus at most one final-compilation diagnostic; the loop never aborts. -/
theorem compose_dependency_accumulation (fs : FS) (oracle : ComposerOracle)
    (s s' : Sourcecode) (m : Option NagaModule)
    (h : Sourcecode.compose fs oracle s = some (s', m)) :
    ∃ shaders, all_shaders_in_project fs = some shaders ∧
      s'.dependents = s.dependents
        ++ (shaders.filter (readable_shader fs)).map Prod.fst ∧
      ∃ tail, tail.length ≤ 1 ∧
        s'.errors = s.errors
          ++ (register_effects fs oracle shaders initial_composer).2 ++ tail := by
  cases hs : all_shaders_in_project fs with
  | none => rw [Sourcecode.compose, hs] at h; simp at h
  | some shaders =>
    refine ⟨shaders, rfl, ?_⟩
    rw [compose_eq fs oracle s shaders hs] at h
    cases hmk : oracle.make (register_effects fs oracle shaders initial_composer).1
        (entry_descriptor s) with
    | ok module =>
      rw [hmk] at h
      simp only [Option.some.injEq, Prod.mk.injEq] at h
      obtain ⟨h1, _⟩ := h
      subst h1
      exact ⟨rfl, [], by simp, by simp [loop_result]⟩
    | error e =>
      rw [hmk] at h
      simp only [Option.some.injEq, Prod.mk.injEq] at h
      obtain ⟨h1, _⟩ := h
      subst h1
      exact ⟨rfl, [render_error e], by simp, by simp [loop_result, Sourcecode.push_error]⟩

/-- Witness for C4: with the composer that rejects `b.wgsl`, the rejected
file is still a dependency and exactly its one flattened diagnostic is
recorded. -/
theorem compose_dependency_accumulation_witness :
    ∃ shaders, all_shaders_in_project projFS = some shaders ∧
      scenario_fail_after.dependents = scenario_unit.dependents
        ++ (shaders.filter (readable_shader projFS)).map Prod.fst ∧
      ∃ tail, tail.length ≤ 1 ∧
        scenario_fail_after.errors = scenario_unit.errors
          ++ (register_effects projFS failAddOracle shaders initial_composer).2 ++ tail :=
  compose_dependency_accumulation projFS failAddOracle scenario_unit
    scenario_fail_after (some ⟨["main"]⟩) (by decide)

/-- C5 (confirmed): a scanned file whose text cannot be read is skipped
entirely by the registration loop: the composer state is untouched (nothing
registered), no dependency entry and no diagnostic are added, and the loop
continues with the remaining files. -/
theorem register_loop_unreadable_skipped (fs : FS) (oracle : ComposerOracle)
    (p rel : PathBuf) (rest : List (PathBuf × PathBuf)) (composer : Composer)
    (s : Sourcecode) (h : fs.read_to_string p = none) :
    register_loop fs oracle ((p, rel) :: rest) composer s
      = register_loop fs oracle rest composer s := by
  cases hext : get_shader_extension p with
  | none => simp only [register_loop, hext]
  | some language => simp only [register_loop, hext, h]

/-- Witness for C5: the unreadable `locked.wgsl` is skipped with no effect. -/
theorem register_loop_unreadable_skipped_witness :
    register_loop projFS okOracle [(path_locked, ⟨false, ["locked.wgsl"]⟩)]
        initial_composer scenario_unit
      = register_loop projFS okOracle [] initial_composer scenario_unit :=
  register_loop_unreadable_skipped projFS okOracle path_locked
    ⟨false, ["locked.wgsl"]⟩ [] initial_composer scenario_unit (by decide)

/-- C6 (confirmed): failure of the final entry compilation is not fatal.
After the registration loop, if `make_naga_module` fails then exactly one
flattened diagnostic is appended, `compose` returns no module, and
`complete` builds its result from the default empty module; if it succeeds
the validated module is returned, that step appends no diagnostic, and
`complete` packages the module. -/
theorem compose_final_compile_outcome (fs : FS) (oracle : ComposerOracle)
    (s : Sourcecode) (shaders : List (PathBuf × PathBuf))
    (hs : all_shaders_in_project fs = some shaders) :
    (∀ e, oracle.make (register_effects fs oracle shaders initial_composer).1
        (entry_descriptor s) = Except.error e →
      Sourcecode.compose fs oracle s
          = some ((loop_result fs oracle s shaders).push_error (render_error e), none) ∧
      Sourcecode.complete fs oracle s
          = some (ShaderResult.new
              ((loop_result fs oracle s shaders).push_error (render_error e))
              NagaModule.default)) ∧
    (∀ module, oracle.make (register_effects fs oracle shaders initial_composer).1
        (entry_descriptor s) = Except.ok module →
      Sourcecode.compose fs oracle s = some (loop_result fs oracle s shaders, some module) ∧
      Sourcecode.complete fs oracle s
          = some (ShaderResult.new (loop_result fs oracle s shaders) module)) := by
  constructor
  · intro e he
    have hc := compose_eq fs oracle s shaders hs
    rw [he] at hc
    exact ⟨hc, by rw [Sourcecode.complete, hc]; rfl⟩
  · intro module hm
    have hc := compose_eq fs oracle s shaders hs
    rw [hm] at hc
    exact ⟨hc, by rw [Sourcecode.complete, hc]; rfl⟩

/-- Witness for C6, failure branch: a composer whose final compile fails
with a two-level cause chain yields one flattened diagnostic, no module from
`compose`, and a `complete` result built from the default module. -/
theorem compose_final_compile_outcome_witness :
    Sourcecode.compose projFS failMakeOracle scenario_unit
        = some ((loop_result projFS failMakeOracle scenario_unit proj_shaders).push_error
            (render_error ⟨"failed to build naga module", ["invalid import"]⟩), none) ∧
    Sourcecode.complete projFS failMakeOracle scenario_unit
        = some (ShaderResult.new
            ((loop_result projFS failMakeOracle scenario_unit proj_shaders).push_error
              (render_error ⟨"failed to build naga module", ["invalid import"]⟩))
            NagaModule.default) :=
  (compose_final_compile_outcome projFS failMakeOracle scenario_unit proj_shaders
      (by decide)).1
    ⟨"failed to build naga module", ["invalid import"]⟩ rfl

/-- C8 (confirmed): a successful scan of a directory tree returns, in order,
exactly one canonicalized path per regular file with a recognized shader
extension found recursively through the tree; unrecognized or extensionless
files and non-file entries contribute nothing. -/
theorem all_child_shaders_exact (canon : PathBuf → Option PathBuf)
    (root : PathBuf) (t : FSTree) (l : List PathBuf)
    (h : all_child_shaders canon root t = some l) :
    List.Forall₂ (fun p q => canon p = some q) (tree_shader_files root t) l :=
  all_child_shaders_sound canon root t l h

/-- Witness for C8: scanning the sample tree yields exactly its two
recognized files (one nested), canonicalized, skipping the `.txt` file, the
extensionless file and the non-regular entry. -/
theorem all_child_shaders_exact_witness :
    List.Forall₂ (fun p q => scan_canon p = some q)
      (tree_shader_files scan_root scan_tree)
      [⟨true, ["r", "a.wgsl"]⟩, ⟨true, ["r", "sub", "c.glsl"]⟩] :=
  all_child_shaders_exact scan_canon scan_root scan_tree
    [⟨true, ["r", "a.wgsl"]⟩, ⟨true, ["r", "sub", "c.glsl"]⟩] (by decide)

/-- C9 (confirmed): rendering an error with a nested cause chain produces
one string holding every level's text from outermost to innermost, adjacent
levels joined by the fixed `": "` delimiter, no level omitted — and a
three-level chain renders as the three messages joined by `": "`.  Both the
module-registration and the entry-compilation failure paths of `compose`
render through this same `render_error`. -/
theorem render_error_chain_complete :
    (∀ e : ComposerError, render_error e = chain_message e.msg e.causes) ∧
    render_error ⟨"outer", ["middle", "inner"]⟩ = "outer: middle: inner" :=
  ⟨render_error_eq_chain, by decide⟩

/-- C10 (confirmed): the final top-level compile request always carries the
WGSL shader type, whatever the entry file's extension: two composers that
agree on registration outcomes and on every WGSL-typed compile request
produce identical compositions for every unit — even one whose resolved
path ends in `.glsl`. -/
theorem compose_entry_always_wgsl (fs : FS) (o1 o2 : ComposerOracle)
    (s : Sourcecode) (hadd : o1.add = o2.add)
    (hmake : ∀ c d, d.shader_type = ShaderType.Wgsl → o1.make c d = o2.make c d) :
    Sourcecode.compose fs o1 s = Sourcecode.compose fs o2 s := by
  cases hs : all_shaders_in_project fs with
  | none =>
    rw [Sourcecode.compose, Sourcecode.compose, hs]
  | some shaders =>
    have heff : register_effects fs o1 shaders initial_composer
        = register_effects fs o2 shaders initial_composer :=
      register_effects_oracle_add fs o1 o2 hadd shaders initial_composer
    have hlr : loop_result fs o1 s shaders = loop_result fs o2 s shaders := by
      unfold loop_result
      rw [heff]
    rw [compose_eq fs o1 s shaders hs, compose_eq fs o2 s shaders hs, heff, hlr,
      hmake _ _ rfl]

/-- Witness for C10: an entry unit resolved from a `.glsl` path composes
identically under the all-accepting composer and under the composer that
rejects every non-WGSL top-level request. -/
theorem compose_entry_always_wgsl_witness :
    Sourcecode.compose projFS okOracle glsl_unit
      = Sourcecode.compose projFS wgslOnlyOracle glsl_unit :=
  compose_entry_always_wgsl projFS okOracle wgslOnlyOracle glsl_unit rfl
    (fun c d hd => by simp [okOracle, wgslOnlyOracle, hd])
